import Mathlib

/-! # gateway/handlers: notifiers

A shallow embedding of `gateway/handlers/notifiers.go`:

* the string helpers of Go's `strings` and `strconv` packages the file calls;
* `urlToLabel` and `getServiceName`, pure functions on strings;
* `fetchInfraType` and `PrometheusFunctionNotifier.Notify`, whose side effects
  (file reads, the control-plane request, metric updates) are recorded as a
  trace of `Effect`s, and whose ways of ending (return, `log.Fatalln`, a
  run-time panic) are recorded as an `Outcome`.

Go strings are modelled by Lean strings (sequences of characters).
-/

namespace Handlers

/-! ## Library functions: `strings`, `strconv` -/

/-- Go `strings.HasPrefix(s, pfx)`. -/
def HasPrefix (s pfx : String) : Bool :=
  pfx.data.isPrefixOf s.data

/-- Substring test on character lists: `sub` occurs at some position of the list. -/
def containsList : List Char → List Char → Bool
  | [], sub => sub.isPrefixOf []
  | c :: cs, sub => sub.isPrefixOf (c :: cs) || containsList cs sub

/-- Go `strings.Contains(s, substr)`. -/
def Contains (s substr : String) : Bool :=
  containsList s.data substr.data

/-- Removal of the trailing characters of a list that satisfy `p`. -/
def dropTrailing (p : Char → Bool) (l : List Char) : List Char :=
  (l.reverse.dropWhile p).reverse

/-- Go `strings.TrimRight(s, cutset)`: all trailing characters contained in
`cutset` are removed. -/
def TrimRight (s cutset : String) : String :=
  ⟨dropTrailing (fun c => cutset.data.contains c) s.data⟩

/-- Go `strings.Trim(s, cutset)`: all leading and trailing characters contained
in `cutset` are removed. -/
def Trim (s cutset : String) : String :=
  ⟨dropTrailing (fun c => cutset.data.contains c)
    (s.data.dropWhile (fun c => cutset.data.contains c))⟩

/-- Go `unicode.IsSpace`: the characters with the Unicode White_Space property. -/
def IsSpace (c : Char) : Bool :=
  let n := c.toNat
  (0x09 ≤ n && n ≤ 0x0D) || n == 0x20 || n == 0x85 || n == 0xA0 || n == 0x1680 ||
  (0x2000 ≤ n && n ≤ 0x200A) || n == 0x2028 || n == 0x2029 || n == 0x202F ||
  n == 0x205F || n == 0x3000

/-- Go `strings.TrimSpace(s)`. -/
def TrimSpace (s : String) : String :=
  ⟨dropTrailing IsSpace (s.data.dropWhile IsSpace)⟩

/-- Go `strconv.Itoa(i)`: the decimal representation of an integer. -/
def Itoa (i : Int) : String :=
  if i < 0 then "-" ++ Nat.repr i.natAbs else Nat.repr i.toNat

/-! ## `urlToLabel` -/

/-- The function `urlToLabel` of notifiers.go. -/
def urlToLabel (path : String) : String :=
  let path := if path.length > 0 then TrimRight path "/" else path
  let path := if path = "" then "/" else path
  path

/-! ## `getServiceName` -/

/-- The characters the name group of the function matcher accepts: anything but
`/` and `?`. -/
def isNameChar (c : Char) : Bool :=
  c != '/' && c != '?'

/-- Modelled from the spec: `functionMatcher`, a compiled pattern declared in
another file of the package, is missing. The spec gives the routing grammar
`/function/<name>[/<rest>][?<query>]` and says the pattern yields the name as
its first captured group, the substring between the prefix and the next `/` (or
the query string, or the end); the comment in `getServiceName` says a positive
match is a three-element slice: the matched text, the service name, the rest of
the path. No match is the nil slice. -/
def functionMatcher.FindStringSubmatch (urlValue : String) : List String :=
  if HasPrefix urlValue "/function/" then
    let rest := urlValue.data.drop "/function/".length
    let name := rest.takeWhile isNameChar
    let path := (rest.dropWhile isNameChar).takeWhile (fun c => c != '?')
    if name.isEmpty then []
    else [⟨"/function/".data ++ name ++ path⟩, ⟨name⟩, ⟨path⟩]
  else []

/-- Modelled from the spec: the constant `hasPathCount` is missing; the comment
in `getServiceName` says a positive match has three elements. -/
def hasPathCount : Nat := 3

/-- Modelled from the spec: the constant `nameIndex` is missing; the comment in
`getServiceName` says the service name is the item at index 1. -/
def nameIndex : Nat := 1

/-- The function `getServiceName` of notifiers.go. -/
def getServiceName (urlValue : String) : String :=
  let forward := "/function/"
  let serviceName :=
    if HasPrefix urlValue forward then
      let ms := functionMatcher.FindStringSubmatch urlValue
      if ms.length = hasPathCount then ms.getD nameIndex "" else ""
    else ""
  Trim serviceName "/"

/-! ## Decoded JSON and Go maps -/

/-- A value as `json.Unmarshal` stores it in an `interface{}`. The payload of a
number is never inspected by the code. -/
inductive Value where
  | null
  | bool (b : Bool)
  | number (v : Rat)
  | string (s : String)
  | array (xs : List Value)
  | object (members : List (String × Value))

/-- Go map index `m[key]` with the comma-ok form, on the members of a decoded
object in the order of the text: a later member replaces an earlier one with
the same key. `none` is "not found". -/
def mapIndex : List (String × Value) → String → Option Value
  | [], _ => none
  | (k, v) :: rest, key =>
    match mapIndex rest key with
    | some later => some later
    | none => if k = key then some v else none

/-- What `json.Unmarshal(body, &jsonb)` leaves in `jsonb`, a
`map[string]interface{}` that starts nil, given the value tree of the body
(`none` when the body is not valid JSON). Only an object is stored; on a syntax
error, on `null` and on any other value the map stays nil, and the error is
dropped by the caller. Indexing a nil map finds nothing, like the empty map. -/
def unmarshalMap : Option Value → List (String × Value)
  | some (Value.object members) => members
  | _ => []

/-! ## Environment, effects, outcomes -/

/-- The request built by `http.NewRequest` and `SetBasicAuth`. -/
structure Request where
  url : String
  username : String
  password : String
  deriving DecidableEq, Repr

/-- The response of `client.Do`; `Body` is what `ioutil.ReadAll(resp.Body)`
yields, `none` on a read error. -/
structure Response where
  Body : Option String
  deriving DecidableEq, Repr

/-- The surroundings of the process and the library calls whose results the code
branches on. -/
structure World where
  /-- Result of `ioutil.ReadFile(path)`: the contents, or `none` on an error. -/
  ReadFile : String → Option String
  /-- Result of `os.Getenv(name)`. -/
  Getenv : String → String
  /-- Whether `http.NewRequest("GET", url, nil)` returns a request (`err == nil`). -/
  NewRequest : String → Bool
  /-- Result of `client.Do(req)`: the response, or `none` on a transport error. -/
  Do : Request → Option Response
  /-- Parse of a body as JSON text by `json.Unmarshal`; `none` when it is not
  valid JSON. -/
  Parse : String → Option Value

/-- The three instruments of `metrics.MetricOptions` the notifier uses. -/
inductive Instrument where
  | GatewayFunctionsHistogram
  | GatewayFunctionInvocation
  | GatewayFunctionInvocationStarted
  deriving DecidableEq, Repr

/-- A `float64` handed to a histogram, recorded as the conversion applied to a
`time.Duration` (an integer count of nanoseconds). -/
inductive FloatExpr where
  /-- The result of `duration.Seconds()`. -/
  | Seconds (duration : Int)
  deriving DecidableEq, Repr

/-- The observable actions of the code, in the order they happen. -/
inductive Effect where
  /-- A call `ioutil.ReadFile(path)`. -/
  | ReadFile (path : String)
  /-- A call `fmt.Println(msg)`. -/
  | Println (msg : String)
  /-- A call `client.Do(req)`: the request to the control plane. -/
  | Do (req : Request)
  /-- A call `log.Fatalln(err)`. -/
  | Fatalln
  /-- Histogram `With(labels).Observe(v)`. -/
  | Observe (h : Instrument) (labels : List (String × String)) (v : FloatExpr)
  /-- Counter `With(labels).Inc()`. -/
  | Inc (c : Instrument) (labels : List (String × String))
  /-- Counter `WithLabelValues(values...).Inc()`. -/
  | IncLabelValues (c : Instrument) (values : List String)
  deriving DecidableEq, Repr

/-- How a call ends. -/
inductive Outcome (α : Type) where
  /-- The function returned. -/
  | returned (a : α)
  /-- The process was ended by `log.Fatalln` (`os.Exit(1)`). -/
  | exited
  /-- A run-time panic: a failed type assertion or a nil dereference. -/
  | panicked
  deriving DecidableEq, Repr

/-- Whether an effect is a metric update. -/
def isMetricUpdate : Effect → Bool
  | Effect.Observe _ _ _ => true
  | Effect.Inc _ _ => true
  | Effect.IncLabelValues _ _ => true
  | _ => false

/-- The metric updates of a trace, in order. -/
def metricUpdates (tr : List Effect) : List Effect :=
  tr.filter isMetricUpdate

/-! ## `fetchInfraType` -/

/-- The tail of `fetchInfraType` of notifiers.go, from `sb := string(body)` on:
the decoding of the body and the two type assertions. -/
def infraTypeOfBody (w : World) (body : String) : Outcome String :=
  let jsonb := unmarshalMap (w.Parse body)
  match mapIndex jsonb "annotations" with
  | some f =>
    match f with
    | Value.object c =>
      match mapIndex c "prometheus_labels" with
      | some d =>
        match d with
        | Value.string b => Outcome.returned b
        | _ => Outcome.panicked
      | none => Outcome.returned ""
    | _ => Outcome.panicked
  | none => Outcome.returned ""

/-- The function `fetchInfraType` of notifiers.go: its trace and its outcome. -/
def fetchInfraType (w : World) (service : String) : List Effect × Outcome String :=
  let pwdPath := "/var/secrets/basic-auth-password"
  let userPath := "/var/secrets/basic-auth-user"
  match w.ReadFile pwdPath with
  | none =>
    ([Effect.ReadFile pwdPath, Effect.Println "unable to load pwd file"], Outcome.returned "")
  | some passwd =>
    match w.ReadFile userPath with
    | none =>
      ([Effect.ReadFile pwdPath, Effect.ReadFile userPath,
        Effect.Println "unable to load user file"], Outcome.returned "")
    | some username =>
      let url := w.Getenv "serverlessurl" ++ "/system/function/" ++ service
      if w.NewRequest url then
        let req : Request := ⟨url, TrimSpace username, TrimSpace passwd⟩
        match w.Do req with
        | none =>
          ([Effect.ReadFile pwdPath, Effect.ReadFile userPath, Effect.Do req, Effect.Fatalln],
            Outcome.exited)
        | some resp =>
          match resp.Body with
          | none =>
            ([Effect.ReadFile pwdPath, Effect.ReadFile userPath, Effect.Do req, Effect.Fatalln],
              Outcome.exited)
          | some body =>
            ([Effect.ReadFile pwdPath, Effect.ReadFile userPath, Effect.Do req],
              infraTypeOfBody w body)
      else
        -- req is nil, and req.SetBasicAuth dereferences it
        ([Effect.ReadFile pwdPath, Effect.ReadFile userPath], Outcome.panicked)

/-! ## `PrometheusFunctionNotifier` -/

/-- The struct `PrometheusFunctionNotifier` of notifiers.go. Its `Metrics` field
points to the instruments, which the trace names by `Instrument`. -/
structure PrometheusFunctionNotifier where
  FunctionNamespace : String

/-- The name after the namespace step of `Notify`:
`serviceName + "." + FunctionNamespace` when the namespace is non-empty and the
name contains no `.`, the name itself otherwise. -/
def withNamespace (p : PrometheusFunctionNotifier) (serviceName : String) : String :=
  if p.FunctionNamespace.length > 0 then
    if !Contains serviceName "." then serviceName ++ "." ++ p.FunctionNamespace
    else serviceName
  else serviceName

/-- The method `PrometheusFunctionNotifier.Notify` of notifiers.go: its trace and
its outcome. A lookup that does not return ends the call. -/
def PrometheusFunctionNotifier.Notify (w : World) (p : PrometheusFunctionNotifier)
    (method URL originalURL : String) (statusCode : Int) (event : String)
    (duration : Int) : List Effect × Outcome Unit :=
  let serviceName := getServiceName originalURL
  match fetchInfraType w serviceName with
  | (tr, Outcome.exited) => (tr, Outcome.exited)
  | (tr, Outcome.panicked) => (tr, Outcome.panicked)
  | (tr, Outcome.returned infraType) =>
    let serviceName := withNamespace p serviceName
    if event = "completed" then
      let seconds := FloatExpr.Seconds duration
      let code := Itoa statusCode
      (tr ++ [Effect.Observe Instrument.GatewayFunctionsHistogram
                [("function_name", serviceName), ("infra_type", infraType)] seconds,
              Effect.Inc Instrument.GatewayFunctionInvocation
                [("function_name", serviceName), ("code", code)]],
        Outcome.returned ())
    else if event = "started" then
      (tr ++ [Effect.IncLabelValues Instrument.GatewayFunctionInvocationStarted [serviceName]],
        Outcome.returned ())
    else (tr, Outcome.returned ())

/-! ## Concrete environments -/

/-- An environment in which both credential files are readable and the control
plane answers every request with `body`, whose JSON value tree is `parsed`. -/
def answering (body : String) (parsed : Option Value) : World where
  ReadFile := fun path =>
    if path = "/var/secrets/basic-auth-password" then some "secret\n"
    else if path = "/var/secrets/basic-auth-user" then some "admin\n"
    else none
  Getenv := fun name => if name = "serverlessurl" then "http://gateway:8080" else ""
  NewRequest := fun _ => true
  Do := fun _ => some ⟨some body⟩
  Parse := fun b => if b = body then parsed else none

/-- An environment in which both credential files are readable and the request
to the control plane fails in transport. -/
def unreachable : World where
  ReadFile := fun path =>
    if path = "/var/secrets/basic-auth-password" then some "secret\n"
    else if path = "/var/secrets/basic-auth-user" then some "admin\n"
    else none
  Getenv := fun _ => ""
  NewRequest := fun _ => true
  Do := fun _ => none
  Parse := fun _ => none

/-- The value tree of the body `{"annotations":{"prometheus_labels":"gpu"}}`. -/
def gpuValue : Value :=
  Value.object [("annotations", Value.object [("prometheus_labels", Value.string "gpu")])]

/-- The body `{"annotations":{"prometheus_labels":"gpu"}}`. -/
def gpuBody : String := "\x7b\"annotations\":\x7b\"prometheus_labels\":\"gpu\"\x7d\x7d"

/-- The function name in the words of the specification: `s` followed by `.` and
the namespace when the namespace is non-empty and `s` contains no `.`, and `s`
otherwise. -/
def suffixedName (ns s : String) : String :=
  if ns ≠ "" ∧ '.' ∉ s.data then s ++ "." ++ ns else s

/-- The body `{"annotations":"gpu"}`: `annotations` is a string. -/
def annotationsStringBody : String := "\x7b\"annotations\":\"gpu\"\x7d"

/-- The value tree of `annotationsStringBody`. -/
def annotationsStringValue : Value :=
  Value.object [("annotations", Value.string "gpu")]

/-- The body `{"annotations":{"prometheus_labels":5}}`: `prometheus_labels` is a
number. -/
def labelsNumberBody : String := "\x7b\"annotations\":\x7b\"prometheus_labels\":5\x7d\x7d"

/-- The value tree of `labelsNumberBody`. -/
def labelsNumberValue : Value :=
  Value.object [("annotations", Value.object [("prometheus_labels", Value.number 5)])]

/-- The body `{}`. -/
def emptyObjectBody : String := "\x7b\x7d"

/-! ## Theorems -/

/-! ### Strings -/
theorem cutset_slash (c : Char) : ("/".data.contains c) = (c == '/') := by
  show (['/'].contains c) = (c == '/')
  cases h : (c == '/') <;> simp [List.contains, List.elem, h]

theorem dropWhile_eq_self_of_all_false (p : Char → Bool) (l : List Char)
    (h : ∀ c ∈ l, p c = false) : l.dropWhile p = l := by
  cases l with
  | nil => rfl
  | cons a t => simp [List.dropWhile, h a (List.mem_cons_self a t)]

theorem dropTrailing_eq_self_of_all_false (p : Char → Bool) (l : List Char)
    (h : ∀ c ∈ l, p c = false) : dropTrailing p l = l := by
  unfold dropTrailing
  rw [dropWhile_eq_self_of_all_false p l.reverse (by intro c hc; exact h c (List.mem_reverse.mp hc))]
  exact List.reverse_reverse l

theorem dropTrailing_decomp (p : Char → Bool) (l : List Char) :
    l = dropTrailing p l ++ (l.reverse.takeWhile p).reverse := by
  unfold dropTrailing
  rw [← List.reverse_append, List.takeWhile_append_dropWhile, List.reverse_reverse]

theorem head?_dropWhile_false (p : Char → Bool) (l : List Char) (c : Char)
    (h : (l.dropWhile p).head? = some c) : p c = false := by
  induction l with
  | nil => simp at h
  | cons a t ih =>
    by_cases hp : p a = true
    · rw [List.dropWhile_cons_of_pos hp] at h
      exact ih h
    · rw [List.dropWhile_cons_of_neg hp] at h
      simp at h
      subst h
      simpa using hp

theorem getLast?_dropTrailing_false (p : Char → Bool) (l : List Char) (c : Char)
    (h : (dropTrailing p l).getLast? = some c) : p c = false := by
  unfold dropTrailing at h
  rw [List.getLast?_reverse] at h
  exact head?_dropWhile_false p l.reverse c h

theorem takeWhile_slash_eq_replicate (l : List Char) :
    l.takeWhile (fun c => c == '/') = List.replicate (l.takeWhile (fun c => c == '/')).length '/' := by
  apply List.eq_replicate_of_mem
  intro b hb
  have := List.mem_takeWhile_imp hb
  simpa using this


theorem cutset_slash_fun :
    (fun c : Char => "/".data.contains c) = (fun c => c == '/') :=
  funext cutset_slash

theorem trimRight_slash_data (s : String) :
    (TrimRight s "/").data = dropTrailing (fun c => c == '/') s.data := by
  unfold TrimRight
  rw [cutset_slash_fun]

theorem trim_slash_data (s : String) :
    (Trim s "/").data =
      dropTrailing (fun c => c == '/') (s.data.dropWhile (fun c => c == '/')) := by
  unfold Trim
  rw [cutset_slash_fun]

theorem string_length_pos_iff (s : String) : s.length > 0 ↔ s ≠ "" := by
  cases s with
  | mk l =>
    cases l with
    | nil => simp [String.length]
    | cons a t => simp [String.length]; intro h; exact absurd (congrArg String.data h) (by simp)

theorem urlToLabel_eq (path : String) :
    urlToLabel path =
      if dropTrailing (fun c => c == '/') path.data = [] then "/"
      else ⟨dropTrailing (fun c => c == '/') path.data⟩ := by
  unfold urlToLabel
  by_cases hp : path.length > 0
  · simp only [hp, if_true]
    have hd := trimRight_slash_data path
    by_cases he : dropTrailing (fun c => c == '/') path.data = []
    · have : TrimRight path "/" = "" := by
        apply String.ext; rw [hd, he]
      simp [this, he]
    · have : TrimRight path "/" ≠ "" := by
        intro h; apply he; rw [← hd, h]
      simp only [this, he, if_false]
      apply String.ext; rw [hd]
  · have hnil : path = "" := by
      by_contra h
      exact hp ((string_length_pos_iff path).mpr h)
    subst hnil
    decide

theorem getLast?_dropTrailing_slash (l : List Char) :
    (dropTrailing (fun c => c == '/') l).getLast? ≠ some '/' := by
  intro h
  have := getLast?_dropTrailing_false (fun c => c == '/') l '/' h
  simp at this

/-- C9: `urlToLabel path` is `path` with all trailing `/` removed (`path` is `r`
followed by `k` slashes, where `r` does not end in `/`), or `/` when nothing is
left; so `urlToLabel ""` and `urlToLabel "/"` are `/`, `urlToLabel "/a/"` is
`/a`, and the result is never empty and ends in `/` only when it is `/`. -/
theorem urlToLabel_trims_trailing_slashes (path : String) :
    (∃ (r : List Char) (k : Nat),
        path.data = r ++ List.replicate k '/' ∧ r.getLast? ≠ some '/' ∧
        urlToLabel path = (if r = [] then "/" else String.mk r)) ∧
    urlToLabel "" = "/" ∧ urlToLabel "/a/" = "/a" ∧ urlToLabel "/" = "/" ∧
    urlToLabel path ≠ "" ∧
    (urlToLabel path = "/" ∨ (urlToLabel path).data.getLast? ≠ some '/') := by
  refine ⟨⟨dropTrailing (fun c => c == '/') path.data,
      (path.data.reverse.takeWhile (fun c => c == '/')).length, ?_,
      getLast?_dropTrailing_slash path.data, urlToLabel_eq path⟩,
    by decide, by decide, by decide, ?_, ?_⟩
  · have h := dropTrailing_decomp (fun c => c == '/') path.data
    rw [takeWhile_slash_eq_replicate path.data.reverse, List.reverse_replicate] at h
    exact h
  · rw [urlToLabel_eq]
    by_cases he : dropTrailing (fun c => c == '/') path.data = []
    · rw [if_pos he]; decide
    · rw [if_neg he]
      intro h
      exact he (congrArg String.data h)
  · rw [urlToLabel_eq]
    by_cases he : dropTrailing (fun c => c == '/') path.data = []
    · left; rw [if_pos he]
    · right; rw [if_neg he]
      exact getLast?_dropTrailing_slash path.data

theorem hasPrefix_append (a b : String) : HasPrefix (a ++ b) a = true := by
  unfold HasPrefix
  rw [String.data_append, List.isPrefixOf_iff_prefix]
  exact List.prefix_append a.data b.data

theorem isNameChar_ne_slash (c : Char) (h : isNameChar c = true) : (c == '/') = false := by
  unfold isNameChar at h
  simp at h
  simp [h.1]

theorem trim_slash_of_nameChars (l : List Char) (h : ∀ c ∈ l, isNameChar c = true) :
    Trim ⟨l⟩ "/" = ⟨l⟩ := by
  apply String.ext
  rw [trim_slash_data]
  have hf : ∀ c ∈ l, (fun c => c == '/') c = false := fun c hc => isNameChar_ne_slash c (h c hc)
  show dropTrailing (fun c => c == '/') (l.dropWhile (fun c => c == '/')) = l
  rw [dropWhile_eq_self_of_all_false _ l hf, dropTrailing_eq_self_of_all_false _ l hf]

theorem findStringSubmatch_function (rest : String) :
    functionMatcher.FindStringSubmatch ("/function/" ++ rest) =
      if (rest.data.takeWhile isNameChar).isEmpty then []
      else [⟨"/function/".data ++ rest.data.takeWhile isNameChar ++
              (rest.data.dropWhile isNameChar).takeWhile (fun c => c != '?')⟩,
            ⟨rest.data.takeWhile isNameChar⟩,
            ⟨(rest.data.dropWhile isNameChar).takeWhile (fun c => c != '?')⟩] := by
  unfold functionMatcher.FindStringSubmatch
  rw [hasPrefix_append]
  have hd : ("/function/" ++ rest).data.drop "/function/".length = rest.data := by
    rw [String.data_append]
    exact List.drop_left _ _
  simp only [if_true, hd]

/-- On a URL with the prefix, `getServiceName` returns the longest run of
characters other than `/` and `?` that follows the prefix. -/
theorem getServiceName_function (rest : String) :
    getServiceName ("/function/" ++ rest) = ⟨rest.data.takeWhile isNameChar⟩ := by
  unfold getServiceName
  simp only [hasPrefix_append, if_true, findStringSubmatch_function]
  by_cases he : (rest.data.takeWhile isNameChar).isEmpty = true
  · rw [if_pos he]
    have : rest.data.takeWhile isNameChar = [] := List.isEmpty_iff.mp he
    rw [this]
    decide
  · rw [if_neg he]
    simp only [List.length_cons, List.length_nil, hasPathCount, nameIndex]
    simp only [Nat.zero_add, Nat.reduceAdd, if_true, List.getD_cons_succ, List.getD_cons_zero]
    exact trim_slash_of_nameChars _ (fun c hc => List.mem_takeWhile_imp hc)

theorem getServiceName_of_not_hasPrefix (url : String)
    (h : HasPrefix url "/function/" = false) : getServiceName url = "" := by
  unfold getServiceName
  simp only [h, Bool.false_eq_true, if_false]
  decide

theorem takeWhile_append_stop (p : Char → Bool) (l t : List Char)
    (hl : ∀ c ∈ l, p c = true) (ht : ∀ c, t.head? = some c → p c = false) :
    (l ++ t).takeWhile p = l := by
  induction l with
  | nil =>
    cases t with
    | nil => rfl
    | cons a s =>
      have := ht a rfl
      simp [List.takeWhile, this]
  | cons a s ih =>
    have ha := hl a (List.mem_cons_self a s)
    rw [List.cons_append, List.takeWhile_cons_of_pos ha,
      ih (fun c hc => hl c (List.mem_cons_of_mem a hc))]

theorem head_of_hasPrefix_single (t : String) (c d : Char)
    (h : HasPrefix t ⟨[c]⟩ = true) (hd : t.data.head? = some d) : d = c := by
  unfold HasPrefix at h
  cases ht : t.data with
  | nil => rw [ht] at hd; simp at hd
  | cons a s =>
    rw [ht] at h hd
    simp [List.isPrefixOf] at h hd
    rw [← hd, h]

/-- A suffix that is empty or begins with `/` or `?` starts with no name character. -/
theorem suffix_head_not_nameChar (t : String)
    (ht : t = "" ∨ HasPrefix t "/" = true ∨ HasPrefix t "?" = true) :
    ∀ c, t.data.head? = some c → isNameChar c = false := by
  intro c hc
  rcases ht with h | h | h
  · subst h; simp at hc
  · have := head_of_hasPrefix_single t '/' c h hc
    subst this; decide
  · have := head_of_hasPrefix_single t '?' c h hc
    subst this; decide

theorem exists_rest_of_hasPrefix (s pfx : String) (h : HasPrefix s pfx = true) :
    ∃ rest : String, s = pfx ++ rest := by
  unfold HasPrefix at h
  rw [List.isPrefixOf_iff_prefix] at h
  obtain ⟨r, hr⟩ := h
  exact ⟨⟨r⟩, String.ext (by rw [String.data_append, hr])⟩

theorem hasPrefix_single_of_head (l : List Char) (c : Char) :
    HasPrefix ⟨c :: l⟩ ⟨[c]⟩ = true := by
  simp [HasPrefix, List.isPrefixOf]

theorem not_nameChar_cases (c : Char) (h : isNameChar c = false) : c = '/' ∨ c = '?' := by
  unfold isNameChar at h
  by_cases h1 : c = '/'
  · exact Or.inl h1
  · by_cases h2 : c = '?'
    · exact Or.inr h2
    · simp [h1, h2] at h

/-- The shape of what follows the name: nothing, or something that begins with
`/` or with `?`. -/
theorem dropWhile_nameChar_shape (l : List Char) :
    (⟨l.dropWhile isNameChar⟩ : String) = "" ∨
    HasPrefix ⟨l.dropWhile isNameChar⟩ "/" = true ∨
    HasPrefix ⟨l.dropWhile isNameChar⟩ "?" = true := by
  cases hd : l.dropWhile isNameChar with
  | nil => left; rfl
  | cons a s =>
    have hfalse : isNameChar a = false := by
      have := head?_dropWhile_false isNameChar l a (by rw [hd]; rfl)
      exact this
    rcases not_nameChar_cases a hfalse with h | h
    · subst h; right; left; exact hasPrefix_single_of_head s '/'
    · subst h; right; right; exact hasPrefix_single_of_head s '?'

/-- C2: for a non-empty name `X` without `/` and `?`, and a suffix `t` that is
empty or begins with `/` or `?`, `getServiceName ("/function/" ++ X ++ t)` is
exactly `X`, and it neither begins nor ends with `/`. -/
theorem getServiceName_returns_name (X t : String) (hX : X ≠ "")
    (hs : '/' ∉ X.data) (hq : '?' ∉ X.data)
    (ht : t = "" ∨ HasPrefix t "/" = true ∨ HasPrefix t "?" = true) :
    getServiceName ("/function/" ++ X ++ t) = X ∧
    HasPrefix (getServiceName ("/function/" ++ X ++ t)) "/" = false ∧
    (getServiceName ("/function/" ++ X ++ t)).data.getLast? ≠ some '/' := by
  have hname : ∀ c ∈ X.data, isNameChar c = true := by
    intro c hc
    have h1 : c ≠ '/' := fun h => hs (h ▸ hc)
    have h2 : c ≠ '?' := fun h => hq (h ▸ hc)
    simp [isNameChar, h1, h2]
  have heq : getServiceName ("/function/" ++ X ++ t) = X := by
    rw [String.append_assoc, getServiceName_function, String.data_append,
      takeWhile_append_stop isNameChar X.data t.data hname (suffix_head_not_nameChar t ht)]
  refine ⟨heq, ?_, ?_⟩
  · rw [heq]
    cases hd : X.data with
    | nil => exact absurd (String.ext hd) hX
    | cons a s =>
      have ha : a ≠ '/' := fun h => hs (by rw [hd, h]; exact List.mem_cons_self _ _)
      simp [HasPrefix, hd, List.isPrefixOf]
      exact fun h => ha h.symm
  · rw [heq]
    intro h
    exact hs (List.mem_of_getLast?_eq_some h)

/-- Witness of C2 at the URL of the comment in `getServiceName`. -/
theorem getServiceName_returns_name_witness :
    "xyz" ≠ "" ∧ '/' ∉ "xyz".data ∧ '?' ∉ "xyz".data ∧
    HasPrefix "/rest/of/path?q=a" "/" = true ∧
    getServiceName ("/function/" ++ "xyz" ++ "/rest/of/path?q=a") = "xyz" :=
  ⟨by decide, by decide, by decide, by decide,
    (getServiceName_returns_name "xyz" "/rest/of/path?q=a" (by decide) (by decide) (by decide)
      (Or.inr (Or.inl (by decide)))).1⟩

/-- C10: `getServiceName` returns the empty string on every URL that is not
`/function/` followed by a non-empty name `X` (without `/` and `?`) and then by
nothing or by something beginning with `/` or `?`; in particular on every URL
without the prefix `/function/`, and on every URL in which the prefix is
followed by the end of the string, by `/` or by `?`. -/
theorem getServiceName_empty_of_no_match (url : String) :
    ((¬ ∃ X t : String, X ≠ "" ∧ '/' ∉ X.data ∧ '?' ∉ X.data ∧
          (t = "" ∨ HasPrefix t "/" = true ∨ HasPrefix t "?" = true) ∧
          url = "/function/" ++ X ++ t) →
      getServiceName url = "") ∧
    (HasPrefix url "/function/" = false → getServiceName url = "") ∧
    (∀ t : String, (t = "" ∨ HasPrefix t "/" = true ∨ HasPrefix t "?" = true) →
      url = "/function/" ++ t → getServiceName url = "") := by
  refine ⟨?_, getServiceName_of_not_hasPrefix url, ?_⟩
  · intro hno
    cases hp : HasPrefix url "/function/" with
    | false => exact getServiceName_of_not_hasPrefix url hp
    | true =>
      obtain ⟨rest, hrest⟩ := exists_rest_of_hasPrefix url "/function/" hp
      subst hrest
      rw [getServiceName_function]
      by_cases hn : rest.data.takeWhile isNameChar = []
      · rw [hn]
      · exfalso
        apply hno
        refine ⟨⟨rest.data.takeWhile isNameChar⟩, ⟨rest.data.dropWhile isNameChar⟩,
          fun h => hn (congrArg String.data h), ?_, ?_, dropWhile_nameChar_shape rest.data, ?_⟩
        · intro hm
          have := List.mem_takeWhile_imp hm
          simp [isNameChar] at this
        · intro hm
          have := List.mem_takeWhile_imp hm
          simp [isNameChar] at this
        · rw [String.append_assoc]
          congr 1
          apply String.ext
          rw [String.data_append]
          exact (List.takeWhile_append_dropWhile isNameChar rest.data).symm
  · intro t ht hurl
    subst hurl
    rw [getServiceName_function]
    have : (([] : List Char) ++ t.data).takeWhile isNameChar = [] :=
      takeWhile_append_stop isNameChar [] t.data (by simp) (suffix_head_not_nameChar t ht)
    rw [List.nil_append] at this
    rw [this]

/-- Witness of C10 at `/health`, `function/x`, `/async-function/x`, `/function/`,
`/function//x` and `/function/?q=1`. -/
theorem getServiceName_empty_of_no_match_witness :
    HasPrefix "/health" "/function/" = false ∧ getServiceName "/health" = "" ∧
    getServiceName "function/x" = "" ∧ getServiceName "/async-function/x" = "" ∧
    getServiceName "/function/" = "" ∧ getServiceName "/function//x" = "" ∧
    getServiceName "/function/?q=1" = "" :=
  ⟨by decide,
    (getServiceName_empty_of_no_match "/health").2.1 (by decide),
    (getServiceName_empty_of_no_match "function/x").2.1 (by decide),
    (getServiceName_empty_of_no_match "/async-function/x").2.1 (by decide),
    (getServiceName_empty_of_no_match "/function/").2.2 "" (Or.inl rfl) (by decide),
    (getServiceName_empty_of_no_match "/function//x").2.2 "/x" (Or.inr (Or.inl (by decide)))
      (by decide),
    (getServiceName_empty_of_no_match "/function/?q=1").2.2 "?q=1"
      (Or.inr (Or.inr (by decide))) (by decide)⟩

/-! ### `fetchInfraType` -/

/-- When both files are read, the request is built and answered and the body is
read, `fetchInfraType` performs the two reads and the request, and ends the way
the decoding of the body ends. -/
theorem fetchInfraType_of_body (w : World) (service passwd username body : String)
    (hp : w.ReadFile "/var/secrets/basic-auth-password" = some passwd)
    (hu : w.ReadFile "/var/secrets/basic-auth-user" = some username)
    (hn : w.NewRequest (w.Getenv "serverlessurl" ++ "/system/function/" ++ service) = true)
    (hd : w.Do ⟨w.Getenv "serverlessurl" ++ "/system/function/" ++ service,
        TrimSpace username, TrimSpace passwd⟩ = some ⟨some body⟩) :
    fetchInfraType w service =
      ([Effect.ReadFile "/var/secrets/basic-auth-password",
        Effect.ReadFile "/var/secrets/basic-auth-user",
        Effect.Do ⟨w.Getenv "serverlessurl" ++ "/system/function/" ++ service,
          TrimSpace username, TrimSpace passwd⟩],
       infraTypeOfBody w body) := by
  unfold fetchInfraType
  simp only [hp, hu, hn, hd, if_true]

theorem infraTypeOfBody_label (w : World) (body : String)
    (members annotations : List (String × Value)) (L : String)
    (hj : w.Parse body = some (Value.object members))
    (ha : mapIndex members "annotations" = some (Value.object annotations))
    (hl : mapIndex annotations "prometheus_labels" = some (Value.string L)) :
    infraTypeOfBody w body = Outcome.returned L := by
  unfold infraTypeOfBody
  simp only [hj, unmarshalMap, ha, hl]

theorem unmarshalMap_of_not_object (v : Value) (h : ∀ m, v ≠ Value.object m) :
    unmarshalMap (some v) = [] := by
  cases v with
  | object m => exact absurd rfl (h m)
  | _ => rfl

theorem infraTypeOfBody_irregular (w : World) (body : String)
    (h : w.Parse body = none ∨
      (∃ v, w.Parse body = some v ∧ ∀ m, v ≠ Value.object m) ∨
      (∃ m, w.Parse body = some (Value.object m) ∧ mapIndex m "annotations" = none) ∨
      (∃ m c, w.Parse body = some (Value.object m) ∧
        mapIndex m "annotations" = some (Value.object c) ∧
        mapIndex c "prometheus_labels" = none)) :
    infraTypeOfBody w body = Outcome.returned "" := by
  unfold infraTypeOfBody
  rcases h with h | ⟨v, hv, hno⟩ | ⟨m, hm, ha⟩ | ⟨m, c, hm, ha, hl⟩
  · simp only [h, unmarshalMap, mapIndex]
  · simp only [hv, unmarshalMap_of_not_object v hno, mapIndex]
  · simp only [hm, unmarshalMap, ha]
  · simp only [hm, unmarshalMap, ha, hl]

/-- C3: when both credential files are readable, the request is built and
answered and the body read, and the body parses as an object whose
`annotations` member is an object whose `prometheus_labels` member is the
string `L`, `fetchInfraType` returns `L`, whatever the other members are. -/
theorem fetchInfraType_returns_label (w : World) (service passwd username body : String)
    (members annotations : List (String × Value)) (L : String)
    (hp : w.ReadFile "/var/secrets/basic-auth-password" = some passwd)
    (hu : w.ReadFile "/var/secrets/basic-auth-user" = some username)
    (hn : w.NewRequest (w.Getenv "serverlessurl" ++ "/system/function/" ++ service) = true)
    (hd : w.Do ⟨w.Getenv "serverlessurl" ++ "/system/function/" ++ service,
        TrimSpace username, TrimSpace passwd⟩ = some ⟨some body⟩)
    (hj : w.Parse body = some (Value.object members))
    (ha : mapIndex members "annotations" = some (Value.object annotations))
    (hl : mapIndex annotations "prometheus_labels" = some (Value.string L)) :
    (fetchInfraType w service).2 = Outcome.returned L := by
  rw [fetchInfraType_of_body w service passwd username body hp hu hn hd]
  exact infraTypeOfBody_label w body members annotations L hj ha hl

/-- Witness of C3 at the body `{"annotations":{"prometheus_labels":"gpu"}}`. -/
theorem fetchInfraType_returns_label_witness :
    (answering gpuBody (some gpuValue)).Parse gpuBody = some gpuValue ∧
    (fetchInfraType (answering gpuBody (some gpuValue)) "echo").2 = Outcome.returned "gpu" :=
  ⟨rfl,
    fetchInfraType_returns_label (answering gpuBody (some gpuValue)) "echo" "secret\n" "admin\n"
      gpuBody [("annotations", Value.object [("prometheus_labels", Value.string "gpu")])]
      [("prometheus_labels", Value.string "gpu")] "gpu"
      (by decide) (by decide) rfl rfl rfl rfl rfl⟩

/-- C5, at two failing inputs: on the body `{"annotations":"gpu"}` and on the body
`{"annotations":{"prometheus_labels":5}}` the type assertion fails and
`fetchInfraType` panics instead of returning the empty string. -/
theorem fetchInfraType_panics_on_wrong_type :
    (fetchInfraType (answering annotationsStringBody (some annotationsStringValue)) "echo").2 =
      Outcome.panicked ∧
    (fetchInfraType (answering labelsNumberBody (some labelsNumberValue)) "echo").2 =
      Outcome.panicked := by
  constructor <;> rfl

/-- C6: when the exchange delivers a body that is not valid JSON, or is valid JSON
but not an object, or is an object without `annotations`, or has an object
`annotations` without `prometheus_labels`, `fetchInfraType` returns the empty
string: it does not panic and does not end the process. -/
theorem fetchInfraType_empty_on_irregular_body (w : World)
    (service passwd username body : String)
    (hp : w.ReadFile "/var/secrets/basic-auth-password" = some passwd)
    (hu : w.ReadFile "/var/secrets/basic-auth-user" = some username)
    (hn : w.NewRequest (w.Getenv "serverlessurl" ++ "/system/function/" ++ service) = true)
    (hd : w.Do ⟨w.Getenv "serverlessurl" ++ "/system/function/" ++ service,
        TrimSpace username, TrimSpace passwd⟩ = some ⟨some body⟩)
    (h : w.Parse body = none ∨
      (∃ v, w.Parse body = some v ∧ ∀ m, v ≠ Value.object m) ∨
      (∃ m, w.Parse body = some (Value.object m) ∧ mapIndex m "annotations" = none) ∨
      (∃ m c, w.Parse body = some (Value.object m) ∧
        mapIndex m "annotations" = some (Value.object c) ∧
        mapIndex c "prometheus_labels" = none)) :
    (fetchInfraType w service).2 = Outcome.returned "" := by
  rw [fetchInfraType_of_body w service passwd username body hp hu hn hd]
  exact infraTypeOfBody_irregular w body h

/-- Witness of C6 at a body that is not JSON, at the body `[1]`, at the body `{}`
and at the body `{"annotations":{}}`. -/
theorem fetchInfraType_empty_on_irregular_body_witness :
    (fetchInfraType (answering "<html>" none) "echo").2 = Outcome.returned "" ∧
    (fetchInfraType (answering "[1]" (some (Value.array [Value.number 1]))) "echo").2 =
      Outcome.returned "" ∧
    (fetchInfraType (answering emptyObjectBody (some (Value.object []))) "echo").2 =
      Outcome.returned "" ∧
    (fetchInfraType (answering "\x7b\"annotations\":\x7b\x7d\x7d"
      (some (Value.object [("annotations", Value.object [])]))) "echo").2 =
      Outcome.returned "" :=
  ⟨fetchInfraType_empty_on_irregular_body (answering "<html>" none) "echo" "secret\n" "admin\n"
      "<html>" (by decide) (by decide) rfl rfl (Or.inl rfl),
    fetchInfraType_empty_on_irregular_body
      (answering "[1]" (some (Value.array [Value.number 1]))) "echo" "secret\n" "admin\n"
      "[1]" (by decide) (by decide) rfl rfl
      (Or.inr (Or.inl ⟨Value.array [Value.number 1], rfl, fun m h => by cases h⟩)),
    fetchInfraType_empty_on_irregular_body
      (answering emptyObjectBody (some (Value.object []))) "echo" "secret\n" "admin\n"
      emptyObjectBody (by decide) (by decide) rfl rfl
      (Or.inr (Or.inr (Or.inl ⟨[], rfl, rfl⟩))),
    fetchInfraType_empty_on_irregular_body
      (answering "\x7b\"annotations\":\x7b\x7d\x7d"
        (some (Value.object [("annotations", Value.object [])]))) "echo" "secret\n" "admin\n"
      "\x7b\"annotations\":\x7b\x7d\x7d" (by decide) (by decide) rfl rfl
      (Or.inr (Or.inr (Or.inr ⟨[("annotations", Value.object [])], [], rfl, rfl, rfl⟩)))⟩

/-! ### `PrometheusFunctionNotifier.Notify` -/

theorem containsList_single (l : List Char) (c : Char) :
    containsList l [c] = true ↔ c ∈ l := by
  induction l with
  | nil => simp [containsList, List.isPrefixOf]
  | cons a s ih =>
    simp only [containsList, List.isPrefixOf, Bool.or_eq_true, ih, List.mem_cons,
      Bool.and_true, beq_iff_eq]

theorem contains_dot (s : String) : Contains s "." = true ↔ '.' ∈ s.data :=
  containsList_single s.data '.'

/-- The namespace step of `Notify` computes the name the specification describes. -/
theorem withNamespace_eq (p : PrometheusFunctionNotifier) (s : String) :
    withNamespace p s = suffixedName p.FunctionNamespace s := by
  unfold withNamespace suffixedName
  by_cases hns : p.FunctionNamespace = ""
  · have : ¬ p.FunctionNamespace.length > 0 :=
      fun h => (string_length_pos_iff _).mp h hns
    simp [this, hns]
  · have hpos : p.FunctionNamespace.length > 0 := (string_length_pos_iff _).mpr hns
    by_cases hdot : '.' ∈ s.data
    · have : Contains s "." = true := (contains_dot s).mpr hdot
      simp [hpos, this, hdot]
    · have : Contains s "." = false := by
        cases hc : Contains s "." with
        | false => rfl
        | true => exact absurd ((contains_dot s).mp hc) hdot
      simp [hpos, this, hdot, hns]

/-- The lookup updates no metric. -/
theorem metricUpdates_fetchInfraType (w : World) (service : String) :
    metricUpdates (fetchInfraType w service).1 = [] := by
  unfold fetchInfraType
  simp only
  split
  · rfl
  · split
    · rfl
    · split
      · split
        · rfl
        · split <;> rfl
      · rfl

theorem metricUpdates_append (a b : List Effect) :
    metricUpdates (a ++ b) = metricUpdates a ++ metricUpdates b :=
  List.filter_append a b

/-- After a lookup that returns, `Notify` dispatches on the event with the
suffixed name. -/
theorem notify_of_returned (w : World) (p : PrometheusFunctionNotifier)
    (method URL originalURL : String) (statusCode : Int) (event : String) (duration : Int)
    (tr : List Effect) (infra : String)
    (h : fetchInfraType w (getServiceName originalURL) = (tr, Outcome.returned infra)) :
    PrometheusFunctionNotifier.Notify w p method URL originalURL statusCode event duration =
      if event = "completed" then
        (tr ++ [Effect.Observe Instrument.GatewayFunctionsHistogram
                  [("function_name",
                      suffixedName p.FunctionNamespace (getServiceName originalURL)),
                    ("infra_type", infra)] (FloatExpr.Seconds duration),
                Effect.Inc Instrument.GatewayFunctionInvocation
                  [("function_name",
                      suffixedName p.FunctionNamespace (getServiceName originalURL)),
                    ("code", Itoa statusCode)]],
          Outcome.returned ())
      else if event = "started" then
        (tr ++ [Effect.IncLabelValues Instrument.GatewayFunctionInvocationStarted
                  [suffixedName p.FunctionNamespace (getServiceName originalURL)]],
          Outcome.returned ())
      else (tr, Outcome.returned ()) := by
  unfold PrometheusFunctionNotifier.Notify
  simp only [h, withNamespace_eq]

/-- The trace of `Notify` starts with the trace of the lookup, and is exactly
that trace when the event is neither "completed" nor "started". -/
theorem notify_trace_other (w : World) (p : PrometheusFunctionNotifier)
    (method URL originalURL : String) (statusCode : Int) (event : String) (duration : Int)
    (hc : event ≠ "completed") (hs : event ≠ "started") :
    (PrometheusFunctionNotifier.Notify w p method URL originalURL statusCode event duration).1 =
      (fetchInfraType w (getServiceName originalURL)).1 := by
  unfold PrometheusFunctionNotifier.Notify
  simp only [hc, hs, if_false]
  split <;> simp_all

/-- C1, as amended: whenever the lookup `fetchInfraType(s)` returns a value
`infra`, with `s = getServiceName(originalURL)`, `Notify` with event "completed"
performs the lookup and then exactly two metric updates, in this order: the
observation of the histogram with `function_name = s'`, `infra_type = infra` and
the duration in seconds, and the increment of the invocation counter with
`function_name = s'` and `code` the decimal string of the status code. -/
theorem notify_completed_updates (w : World) (p : PrometheusFunctionNotifier)
    (method URL originalURL : String) (statusCode : Int) (duration : Int)
    (tr : List Effect) (infra : String)
    (h : fetchInfraType w (getServiceName originalURL) = (tr, Outcome.returned infra)) :
    PrometheusFunctionNotifier.Notify w p method URL originalURL statusCode "completed"
        duration =
      (tr ++ [Effect.Observe Instrument.GatewayFunctionsHistogram
                [("function_name",
                    suffixedName p.FunctionNamespace (getServiceName originalURL)),
                  ("infra_type", infra)] (FloatExpr.Seconds duration),
              Effect.Inc Instrument.GatewayFunctionInvocation
                [("function_name",
                    suffixedName p.FunctionNamespace (getServiceName originalURL)),
                  ("code", Itoa statusCode)]],
        Outcome.returned ()) ∧
    metricUpdates (PrometheusFunctionNotifier.Notify w p method URL originalURL statusCode
        "completed" duration).1 =
      [Effect.Observe Instrument.GatewayFunctionsHistogram
          [("function_name", suffixedName p.FunctionNamespace (getServiceName originalURL)),
            ("infra_type", infra)] (FloatExpr.Seconds duration),
        Effect.Inc Instrument.GatewayFunctionInvocation
          [("function_name", suffixedName p.FunctionNamespace (getServiceName originalURL)),
            ("code", Itoa statusCode)]] := by
  have htr : metricUpdates tr = [] := by
    have := metricUpdates_fetchInfraType w (getServiceName originalURL)
    rw [h] at this
    exact this
  rw [notify_of_returned w p method URL originalURL statusCode "completed" duration tr infra h]
  rw [if_pos rfl]
  refine ⟨rfl, ?_⟩
  rw [metricUpdates_append, htr]
  rfl

/-- Witness of C1 as amended: scenario 2 of the spec. -/
theorem notify_completed_updates_witness :
    fetchInfraType (answering gpuBody (some gpuValue)) (getServiceName "/function/echo") =
      ([Effect.ReadFile "/var/secrets/basic-auth-password",
        Effect.ReadFile "/var/secrets/basic-auth-user",
        Effect.Do ⟨"http://gateway:8080/system/function/echo", "admin", "secret"⟩],
       Outcome.returned "gpu") ∧
    metricUpdates (PrometheusFunctionNotifier.Notify (answering gpuBody (some gpuValue))
        ⟨"openfaas-fn"⟩ "GET" "/function/echo" "/function/echo" 200 "completed" 150000000).1 =
      [Effect.Observe Instrument.GatewayFunctionsHistogram
          [("function_name", suffixedName "openfaas-fn" (getServiceName "/function/echo")),
            ("infra_type", "gpu")] (FloatExpr.Seconds 150000000),
        Effect.Inc Instrument.GatewayFunctionInvocation
          [("function_name", suffixedName "openfaas-fn" (getServiceName "/function/echo")),
            ("code", Itoa 200)]] :=
  ⟨rfl,
    (notify_completed_updates (answering gpuBody (some gpuValue)) ⟨"openfaas-fn"⟩ "GET"
      "/function/echo" "/function/echo" 200 150000000 _ "gpu" rfl).2⟩

/-- C1 fails as stated: when the request to the control plane fails in
transport, `Notify` with event "completed" ends the process in `log.Fatalln`
and updates no metric. -/
theorem notify_completed_exits_without_updates :
    PrometheusFunctionNotifier.Notify unreachable ⟨"openfaas-fn"⟩ "GET" "/function/echo"
        "/function/echo" 200 "completed" 150000000 =
      ([Effect.ReadFile "/var/secrets/basic-auth-password",
        Effect.ReadFile "/var/secrets/basic-auth-user",
        Effect.Do ⟨"/system/function/echo", "admin", "secret"⟩,
        Effect.Fatalln],
       Outcome.exited) ∧
    metricUpdates (PrometheusFunctionNotifier.Notify unreachable ⟨"openfaas-fn"⟩ "GET"
        "/function/echo" "/function/echo" 200 "completed" 150000000).1 = [] := by
  constructor <;> decide

/-- C4, as amended: whenever the lookup `fetchInfraType(s)` returns, with
`s = getServiceName(originalURL)`, `Notify` with event "started" performs the
lookup and then increments the started counter exactly once, with the name
`s'`: the namespace is appended to the label of the started counter by the same
rule as for the completed event. -/
theorem notify_started_updates (w : World) (p : PrometheusFunctionNotifier)
    (method URL originalURL : String) (statusCode : Int) (duration : Int)
    (tr : List Effect) (infra : String)
    (h : fetchInfraType w (getServiceName originalURL) = (tr, Outcome.returned infra)) :
    PrometheusFunctionNotifier.Notify w p method URL originalURL statusCode "started"
        duration =
      (tr ++ [Effect.IncLabelValues Instrument.GatewayFunctionInvocationStarted
                [suffixedName p.FunctionNamespace (getServiceName originalURL)]],
        Outcome.returned ()) ∧
    metricUpdates (PrometheusFunctionNotifier.Notify w p method URL originalURL statusCode
        "started" duration).1 =
      [Effect.IncLabelValues Instrument.GatewayFunctionInvocationStarted
          [suffixedName p.FunctionNamespace (getServiceName originalURL)]] := by
  have htr : metricUpdates tr = [] := by
    have := metricUpdates_fetchInfraType w (getServiceName originalURL)
    rw [h] at this
    exact this
  rw [notify_of_returned w p method URL originalURL statusCode "started" duration tr infra h]
  have hne : ¬ ("started" = "completed") := by decide
  rw [if_neg hne, if_pos rfl]
  refine ⟨rfl, ?_⟩
  rw [metricUpdates_append, htr]
  rfl

/-- Witness of C4 as amended: scenario 1 of the spec with the namespace
`openfaas-fn`. -/
theorem notify_started_updates_witness :
    fetchInfraType (answering gpuBody (some gpuValue)) (getServiceName "/function/echo") =
      ([Effect.ReadFile "/var/secrets/basic-auth-password",
        Effect.ReadFile "/var/secrets/basic-auth-user",
        Effect.Do ⟨"http://gateway:8080/system/function/echo", "admin", "secret"⟩],
       Outcome.returned "gpu") ∧
    metricUpdates (PrometheusFunctionNotifier.Notify (answering gpuBody (some gpuValue))
        ⟨"openfaas-fn"⟩ "GET" "/function/echo" "/function/echo" 200 "started" 0).1 =
      [Effect.IncLabelValues Instrument.GatewayFunctionInvocationStarted
          [suffixedName "openfaas-fn" (getServiceName "/function/echo")]] :=
  ⟨rfl,
    (notify_started_updates (answering gpuBody (some gpuValue)) ⟨"openfaas-fn"⟩ "GET"
      "/function/echo" "/function/echo" 200 0 _ "gpu" rfl).2⟩

/-- C4 fails as stated: with the namespace `openfaas-fn`, the started counter is
incremented with `echo.openfaas-fn`, not with `getServiceName(originalURL)`,
which is `echo`; and when the request to the control plane fails in transport
the started counter is not incremented at all. -/
theorem notify_started_label_is_suffixed :
    metricUpdates (PrometheusFunctionNotifier.Notify (answering gpuBody (some gpuValue))
        ⟨"openfaas-fn"⟩ "GET" "/function/echo" "/function/echo" 200 "started" 0).1 =
      [Effect.IncLabelValues Instrument.GatewayFunctionInvocationStarted
          ["echo.openfaas-fn"]] ∧
    getServiceName "/function/echo" = "echo" ∧
    metricUpdates (PrometheusFunctionNotifier.Notify (answering gpuBody (some gpuValue))
        ⟨"openfaas-fn"⟩ "GET" "/function/echo" "/function/echo" 200 "started" 0).1 ≠
      [Effect.IncLabelValues Instrument.GatewayFunctionInvocationStarted
          [getServiceName "/function/echo"]] ∧
    metricUpdates (PrometheusFunctionNotifier.Notify unreachable ⟨""⟩ "GET" "/function/echo"
        "/function/echo" 200 "started" 0).1 = [] := by
  refine ⟨by decide, by decide, by decide, by decide⟩

theorem suffixedName_empty (ns : String) :
    suffixedName ns "" = if ns = "" then "" else "." ++ ns := by
  unfold suffixedName
  by_cases hns : ns = ""
  · simp [hns]
  · have h1 : ("" : String) ++ "." = "." := by decide
    have h2 : '.' ∉ ("" : String).data := by decide
    rw [if_pos ⟨hns, h2⟩, if_neg hns, h1]

/-- C7, as amended: for an original URL that does not begin with `/function/`,
whenever the lookup `fetchInfraType("")` returns a value `infra`, `Notify` with
event "completed" records the observation and the increment with
`function_name = ""` when no namespace is configured, and with
`function_name = "." + ns` when the namespace `ns` is non-empty. -/
theorem notify_completed_outside_function_route (w : World)
    (p : PrometheusFunctionNotifier) (method URL originalURL : String) (statusCode : Int)
    (duration : Int) (tr : List Effect) (infra : String)
    (hpre : HasPrefix originalURL "/function/" = false)
    (h : fetchInfraType w "" = (tr, Outcome.returned infra)) :
    metricUpdates (PrometheusFunctionNotifier.Notify w p method URL originalURL statusCode
        "completed" duration).1 =
      [Effect.Observe Instrument.GatewayFunctionsHistogram
          [("function_name",
              if p.FunctionNamespace = "" then "" else "." ++ p.FunctionNamespace),
            ("infra_type", infra)] (FloatExpr.Seconds duration),
        Effect.Inc Instrument.GatewayFunctionInvocation
          [("function_name",
              if p.FunctionNamespace = "" then "" else "." ++ p.FunctionNamespace),
            ("code", Itoa statusCode)]] := by
  have hs : getServiceName originalURL = "" := getServiceName_of_not_hasPrefix originalURL hpre
  have htr : metricUpdates tr = [] := by
    have := metricUpdates_fetchInfraType w ""
    rw [h] at this
    exact this
  rw [notify_of_returned w p method URL originalURL statusCode "completed" duration tr infra
    (by rw [hs]; exact h)]
  rw [if_pos rfl, hs, suffixedName_empty]
  show metricUpdates (tr ++ _) = _
  rw [metricUpdates_append, htr]
  rfl

/-- Witness of C7 as amended: scenario 6 of the spec, without a namespace and with
the namespace `openfaas-fn`, the control plane answering `{}`. -/
theorem notify_completed_outside_function_route_witness :
    HasPrefix "/health" "/function/" = false ∧
    metricUpdates (PrometheusFunctionNotifier.Notify
        (answering emptyObjectBody (some (Value.object []))) ⟨""⟩ "GET" "/health" "/health"
        200 "completed" 1000000).1 =
      [Effect.Observe Instrument.GatewayFunctionsHistogram
          [("function_name", if ("" : String) = "" then "" else "." ++ ""),
            ("infra_type", "")] (FloatExpr.Seconds 1000000),
        Effect.Inc Instrument.GatewayFunctionInvocation
          [("function_name", if ("" : String) = "" then "" else "." ++ ""),
            ("code", Itoa 200)]] ∧
    metricUpdates (PrometheusFunctionNotifier.Notify
        (answering emptyObjectBody (some (Value.object []))) ⟨"openfaas-fn"⟩ "GET" "/health"
        "/health" 200 "completed" 1000000).1 =
      [Effect.Observe Instrument.GatewayFunctionsHistogram
          [("function_name", if "openfaas-fn" = "" then "" else "." ++ "openfaas-fn"),
            ("infra_type", "")] (FloatExpr.Seconds 1000000),
        Effect.Inc Instrument.GatewayFunctionInvocation
          [("function_name", if "openfaas-fn" = "" then "" else "." ++ "openfaas-fn"),
            ("code", Itoa 200)]] :=
  ⟨by decide,
    notify_completed_outside_function_route (answering emptyObjectBody (some (Value.object [])))
      ⟨""⟩ "GET" "/health" "/health" 200 1000000 _ "" (by decide) rfl,
    notify_completed_outside_function_route (answering emptyObjectBody (some (Value.object [])))
      ⟨"openfaas-fn"⟩ "GET" "/health" "/health" 200 1000000 _ "" (by decide) rfl⟩

/-- C7 fails as stated: for the URL `/health` and the namespace `openfaas-fn`,
both updates carry `function_name = ".openfaas-fn"`, not the empty string; and
when the request to the control plane fails in transport nothing is recorded. -/
theorem notify_completed_health_label_is_namespace :
    HasPrefix "/health" "/function/" = false ∧
    metricUpdates (PrometheusFunctionNotifier.Notify
        (answering emptyObjectBody (some (Value.object []))) ⟨"openfaas-fn"⟩ "GET" "/health"
        "/health" 200 "completed" 1000000).1 =
      [Effect.Observe Instrument.GatewayFunctionsHistogram
          [("function_name", ".openfaas-fn"), ("infra_type", "")] (FloatExpr.Seconds 1000000),
        Effect.Inc Instrument.GatewayFunctionInvocation
          [("function_name", ".openfaas-fn"), ("code", "200")]] ∧
    metricUpdates (PrometheusFunctionNotifier.Notify unreachable ⟨""⟩ "GET" "/health"
        "/health" 200 "completed" 1000000).1 = [] := by
  refine ⟨by decide, by decide, by decide⟩

/-- C8, as amended: for every event other than "started" and "completed",
`Notify` updates no metric, but it is not a no-op: it performs the lookup
`fetchInfraType(getServiceName(originalURL))`, and its effects are exactly
those of the lookup. -/
theorem notify_other_event_only_looks_up (w : World) (p : PrometheusFunctionNotifier)
    (method URL originalURL : String) (statusCode : Int) (event : String) (duration : Int)
    (hs : event ≠ "started") (hc : event ≠ "completed") :
    (PrometheusFunctionNotifier.Notify w p method URL originalURL statusCode event duration).1 =
      (fetchInfraType w (getServiceName originalURL)).1 ∧
    metricUpdates
      (PrometheusFunctionNotifier.Notify w p method URL originalURL statusCode event
        duration).1 = [] := by
  have ht := notify_trace_other w p method URL originalURL statusCode event duration hc hs
  refine ⟨ht, ?_⟩
  rw [ht]
  exact metricUpdates_fetchInfraType w (getServiceName originalURL)

/-- Witness of C8 as amended, at the event "cancelled". -/
theorem notify_other_event_only_looks_up_witness :
    "cancelled" ≠ "started" ∧ "cancelled" ≠ "completed" ∧
    metricUpdates (PrometheusFunctionNotifier.Notify (answering gpuBody (some gpuValue))
        ⟨"openfaas-fn"⟩ "GET" "/function/echo" "/function/echo" 200 "cancelled" 0).1 = [] :=
  ⟨by decide, by decide,
    (notify_other_event_only_looks_up (answering gpuBody (some gpuValue)) ⟨"openfaas-fn"⟩ "GET"
      "/function/echo" "/function/echo" 200 "cancelled" 0 (by decide) (by decide)).2⟩

/-- C8 fails as stated: on the event "cancelled", `Notify` reads both credential
files and sends the request to the control plane; and when that request fails
in transport it ends the process. -/
theorem notify_other_event_reads_and_requests :
    "cancelled" ≠ "started" ∧ "cancelled" ≠ "completed" ∧
    (PrometheusFunctionNotifier.Notify (answering gpuBody (some gpuValue)) ⟨"openfaas-fn"⟩
        "GET" "/function/echo" "/function/echo" 200 "cancelled" 0).1 =
      [Effect.ReadFile "/var/secrets/basic-auth-password",
        Effect.ReadFile "/var/secrets/basic-auth-user",
        Effect.Do ⟨"http://gateway:8080/system/function/echo", "admin", "secret"⟩] ∧
    PrometheusFunctionNotifier.Notify unreachable ⟨"openfaas-fn"⟩ "GET" "/function/echo"
        "/function/echo" 200 "cancelled" 0 =
      ([Effect.ReadFile "/var/secrets/basic-auth-password",
        Effect.ReadFile "/var/secrets/basic-auth-user",
        Effect.Do ⟨"/system/function/echo", "admin", "secret"⟩,
        Effect.Fatalln],
       Outcome.exited) := by
  refine ⟨by decide, by decide, by decide, by decide⟩

end Handlers
